import Mathlib

/-!
Verification of the DNDS notification-delivery service.

Shallow embedding of the Go sources:
* `internal/models` (User, Post, Notification, NewNotification),
* `internal/store` (MemoryStore and its operations),
* `internal/queue` (NotificationQueue, retry/backoff logic, metrics),
* `internal/grpc/service` (PublishPost front end),
* `internal/graphql/resolver` (read API).

Go maps are embedded as association lists with first-match lookup
(Go map keys are unique, and `alookup`/`aset` below agree with map
semantics on any list, reading and writing the first occurrence of a
key).  `time.Time` is embedded as the count of seconds since January 1
of year 1 UTC, exactly the reference point of Go's zero time, so that
`time.Unix` and `Time.IsZero` can both be expressed.  `time.Duration`
values are nanosecond counts.
-/

namespace DNDS

/-- Go `time.Time`, reduced to whole seconds since January 1, year 1, UTC
(the zero `time.Time`).  The service only ever constructs times from
`time.Unix(sec, 0)` or `time.Now()`, so second granularity is faithful. -/
structure GoTime where
  sec : Int
deriving DecidableEq, Repr

/-- Seconds from Go's zero time (Jan 1, year 1) to the Unix epoch
(Jan 1, 1970): the constant `unixToInternal` of Go's `time` package. -/
def unixToInternal : Int := 62135596800

/-- Go `time.Unix(sec, 0)`: the moment `sec` seconds after the Unix epoch. -/
def timeUnix (sec : Int) : GoTime := ⟨sec + unixToInternal⟩

/-- Go `Time.IsZero`: true exactly on the zero time (January 1, year 1). -/
def GoTime.isZero (t : GoTime) : Bool := t.sec == 0

/-- Embeds `models.NotificationStatus` with its five constants
(`StatusUnknown` … `StatusRetrying`). -/
inductive Status where
  | unknown
  | queued
  | delivered
  | failed
  | retrying
deriving DecidableEq, Repr

/-- Embeds `models.User`. -/
structure User where
  id : String
  username : String
  followerIDs : List String
  followingIDs : List String
deriving DecidableEq, Repr

/-- Embeds `models.Post`. -/
structure Post where
  id : String
  authorID : String
  content : String
  createdAt : GoTime
deriving DecidableEq, Repr

/-- Embeds `models.Notification`.  `Attempts` starts at 0 and is only ever
incremented, so `Nat` is a faithful embedding of the Go `int`. -/
structure Notification where
  id : String
  userID : String
  postID : String
  authorID : String
  content : String
  createdAt : GoTime
  read : Bool
  status : Status
  attempts : Nat
deriving DecidableEq, Repr

/-- Embeds `models.NewNotification(userID, post)`.  The freshly minted UUID and
the current time are inputs of the embedding. -/
def newNotification (freshID : String) (now : GoTime) (userID : String)
    (post : Post) : Notification :=
  { id := freshID
    userID := userID
    postID := post.id
    authorID := post.authorID
    content := "New post from a user you follow"
    createdAt := now
    read := false
    status := .queued
    attempts := 0 }

/-! ## Association-list embedding of Go maps -/

/-- Go map read `m[k]`: value at the first occurrence of key `k`. -/
def alookup {α : Type} (m : List (String × α)) (k : String) : Option α :=
  match m with
  | [] => none
  | (k₁, v) :: t => if k₁ = k then some v else alookup t k

/-- Go map write `m[k] = v`: replace the first occurrence of `k`,
or append the binding when `k` is absent. -/
def aset {α : Type} (m : List (String × α)) (k : String) (v : α) :
    List (String × α) :=
  match m with
  | [] => [(k, v)]
  | (k₁, v₁) :: t => if k₁ = k then (k₁, v) :: t else (k₁, v₁) :: aset t k v

theorem alookup_aset_self {α : Type} (m : List (String × α)) (k : String)
    (v : α) : alookup (aset m k v) k = some v := by
  induction m with
  | nil => simp [aset, alookup]
  | cons h t ih =>
    obtain ⟨k₁, v₁⟩ := h
    by_cases hk : k₁ = k
    · simp [aset, alookup, hk]
    · simp [aset, alookup, hk, ih]

theorem alookup_aset_ne {α : Type} (m : List (String × α)) (k k₂ : String)
    (v : α) (hne : k₂ ≠ k) : alookup (aset m k v) k₂ = alookup m k₂ := by
  have hk : k ≠ k₂ := Ne.symm hne
  induction m with
  | nil => simp [aset, alookup, hk]
  | cons h t ih =>
    obtain ⟨k₁, v₁⟩ := h
    by_cases hk₁ : k₁ = k
    · subst hk₁
      simp [aset, alookup, hk]
    · simp [aset, alookup, hk₁, ih]

/-! ## Store (`internal/store/memory_store.go`) -/

/-- The three sentinel errors of the store package. -/
inductive StoreError where
  | userNotFound
  | postNotFound
  | notificationNotFound
deriving DecidableEq, Repr

/-- Embeds `store.MemoryStore`: three maps guarded by one RWMutex.  The lock
serialises operations, so each operation is embedded as a pure function
from store to store. -/
structure MemoryStore where
  users : List (String × User)
  posts : List (String × Post)
  notifications : List (String × List Notification)
deriving DecidableEq, Repr

/-- Embeds `SavePost`: unconditional write of `posts[post.ID] = post`. -/
def savePost (s : MemoryStore) (post : Post) : MemoryStore :=
  { s with posts := aset s.posts post.id post }

/-- Embeds `GetPost`. -/
def getPost (s : MemoryStore) (id : String) : Option Post × Option StoreError :=
  match alookup s.posts id with
  | none => (none, some .postNotFound)
  | some p => (some p, none)

/-- Embeds `GetUser`. -/
def getUser (s : MemoryStore) (id : String) : Option User × Option StoreError :=
  match alookup s.users id with
  | none => (none, some .userNotFound)
  | some u => (some u, none)

/-- Embeds `GetFollowers`: resolve each follower ID against the users map,
silently skipping the ones that do not resolve. -/
def getFollowers (s : MemoryStore) (userID : String) :
    List User × Option StoreError :=
  match alookup s.users userID with
  | none => ([], some .userNotFound)
  | some u => (u.followerIDs.filterMap (fun fid => alookup s.users fid), none)

/-- Embeds `SaveNotification`: append to the recipient's list (creating it if
absent, as Go's `append(m[k], x)` on a missing key does). -/
def saveNotification (s : MemoryStore) (n : Notification) : MemoryStore :=
  let old := (alookup s.notifications n.userID).getD []
  { s with notifications := aset s.notifications n.userID (old ++ [n]) }

/-- The scan of `UpdateNotification`: replace the first entry whose `ID`
matches, or report that none does. -/
def replaceById (ns : List Notification) (n : Notification) :
    Option (List Notification) :=
  match ns with
  | [] => none
  | h :: t =>
    if h.id = n.id then some (n :: t)
    else (replaceById t n).map (fun t₂ => h :: t₂)

/-- Embeds `UpdateNotification`: user-not-found when the recipient has no list,
notification-not-found when no entry matches the ID, otherwise replace
the matching entry in place.  Returns the store after the call together
with the returned error. -/
def updateNotification (s : MemoryStore) (n : Notification) :
    MemoryStore × Option StoreError :=
  match alookup s.notifications n.userID with
  | none => (s, some .userNotFound)
  | some lst =>
    match replaceById lst n with
    | none => (s, some .notificationNotFound)
    | some lst₂ =>
      ({ s with notifications := aset s.notifications n.userID lst₂ }, none)

/-- Embeds `GetUserNotifications`: walk the recipient's list from the end,
collecting at most `limit` entries (`limit` is a Go `int`; a
non-positive limit collects nothing).  The backwards walk is
`reverse` followed by `take`. -/
def getUserNotifications (s : MemoryStore) (userID : String) (limit : Int) :
    List Notification × Option StoreError :=
  match alookup s.notifications userID with
  | none => ([], none)
  | some ns => (ns.reverse.take limit.toNat, none)

/-! ## Queue and retry scheduler (`internal/queue/notification_queue.go`) -/

/-- Constant `maxRetries = 3`. -/
def maxRetries : Nat := 3

/-- One nanosecond-count millisecond, Go's `time.Millisecond`. -/
def millisecond : Int := 1000000

/-- Constant `initialBackoff = 100 * time.Millisecond`, in nanoseconds. -/
def initialBackoff : Int := 100 * millisecond

/-- Constant `maxWorkers = 10`. -/
def maxWorkers : Int := 10

/-- Embeds `queue.NotificationQueue`: the buffered channel is a list bounded by
`capacity`, oldest first; `workerCount` is the configured pool size.
The `Metrics` record is carried alongside. -/
structure Metrics where
  totalSent : Int
  failedAttempts : Int
  totalRetries : Int
  deliveryTimes : List Nat
deriving DecidableEq, Repr

structure NotificationQueue where
  capacity : Nat
  buffer : List Notification
  workerCount : Int
  metrics : Metrics
deriving DecidableEq, Repr

/-- Embeds `NewNotificationQueue(store, workerCount)`: a fresh queue with channel
capacity 1000; a non-positive worker count is replaced by `maxWorkers`. -/
def newNotificationQueue (workerCount : Int) : NotificationQueue :=
  { capacity := 1000
    buffer := []
    workerCount := if workerCount ≤ 0 then maxWorkers else workerCount
    metrics := { totalSent := 0, failedAttempts := 0, totalRetries := 0,
                 deliveryTimes := [] } }

/-- Embeds `QueueNotification`: the non-blocking `select` with a `default` arm —
append when the channel has room, otherwise drop and report `false`. -/
def queueNotification (q : NotificationQueue) (n : Notification) :
    NotificationQueue × Bool :=
  if q.buffer.length < q.capacity then
    ({ q with buffer := q.buffer ++ [n] }, true)
  else (q, false)

/-- The loop of `QueueNotifications`, carrying the `queued` counter. -/
def queueNotificationsAux (q : NotificationQueue) (queued : Nat) :
    List Notification → NotificationQueue × Nat
  | [] => (q, queued)
  | n :: rest =>
    let res := queueNotification q n
    queueNotificationsAux res.1 (if res.2 then queued + 1 else queued) rest

/-- Embeds `QueueNotifications`: submit each notification in order through the
same non-blocking path, counting how many were accepted. -/
def queueNotifications (q : NotificationQueue) (ns : List Notification) :
    NotificationQueue × Nat :=
  queueNotificationsAux q 0 ns

/-- Embeds `math.Pow(2, k)` for the natural exponents that occur in
`processNotification` (`k = Attempts - 1 ∈ \x7b0, 1, 2\x7d`); IEEE-754
doubles represent these powers of two exactly, and the Go conversion
`time.Duration(...)` of an exact small integer is that integer. -/
def mathPowTwo (k : Nat) : Int := 2 ^ k

/-- The backoff computation of `processNotification`:
`time.Duration(math.Pow(2, float64(Attempts-1))) * initialBackoff`,
taking the already-incremented `Attempts` value. -/
def computeBackoff (attempts : Nat) : Int :=
  mathPowTwo (attempts - 1) * initialBackoff

/-- The effect of one `processNotification` pass on the notification
record itself, given the outcome of the synthetic failure draw
(`fail = true` iff `rand.Float64() < failureRate`): on failure the
attempt counter is incremented, then status becomes `Retrying` within
budget and `Failed` past it; on success status becomes `Delivered`. -/
def processNotificationN (fail : Bool) (n : Notification) : Notification :=
  if fail then
    let n₁ := { n with attempts := n.attempts + 1 }
    if n₁.attempts ≤ maxRetries then { n₁ with status := .retrying }
    else { n₁ with status := .failed }
  else { n with status := .delivered }

/-- Whether the failure branch schedules a retry re-enqueue: exactly when
the incremented attempt count is within `maxRetries`. -/
def schedulesRetry (fail : Bool) (n : Notification) : Bool :=
  fail && (n.attempts + 1 ≤ maxRetries)

/-- One pipeline step acting on a notification record.  A worker only
receives items from the channel, and an item is on the channel only when
freshly published (status `Queued`) or re-enqueued by the retry sleeper
(status `Retrying`); the guard captures precisely that.  `reenqueue` is
the retry sleeper's re-submission, which leaves the record unchanged.
Every store write of the pipeline persists the record produced here, so
the status stored by `UpdateNotification` is the record's status. -/
inductive PipelineStep : Notification → Notification → Prop where
  | process (fail : Bool) (n : Notification) :
      n.status = .queued ∨ n.status = .retrying →
      PipelineStep n (processNotificationN fail n)
  | reenqueue (n : Notification) :
      n.status = .retrying →
      PipelineStep n n

/-- Reflexive-transitive closure: the notification record after any
number of pipeline steps. -/
def PipelineReaches (n n₂ : Notification) : Prop :=
  Relation.ReflTransGen PipelineStep n n₂

/-! ## Metrics snapshot (`GetMetrics`) -/

/-- One loop step of Go's `fmtFrac(buf, u, prec)`: builds the fractional
digit string right to left, latching `started` once a non-zero digit has
appeared, and returns the remaining value `u / 10 ^ prec`. -/
def fmtFrac : Nat → Nat → Bool → String → String × Nat
  | 0, u, started, acc => (if started then "." ++ acc else "", u)
  | prec + 1, u, started, acc =>
    let digit := u % 10
    let started₂ := started || decide (digit ≠ 0)
    let acc₂ := if started₂ then Nat.repr digit ++ acc else acc
    fmtFrac prec (u / 10) started₂ acc₂

/-- Go's `time.Duration.String` on a non-negative duration of `u`
nanoseconds (every duration the service renders is non-negative):
sub-second durations print in the largest fitting unit with the
trailing zeros of the fraction trimmed; durations of a second or more
print as hour/minute/second components with a trimmed fraction. -/
def durationString (u : Nat) : String :=
  if u < 1000000000 then
    if u = 0 then "0s"
    else if u < 1000 then
      let fr := fmtFrac 0 u false ""
      Nat.repr fr.2 ++ fr.1 ++ "ns"
    else if u < 1000000 then
      let fr := fmtFrac 3 u false ""
      Nat.repr fr.2 ++ fr.1 ++ "µs"
    else
      let fr := fmtFrac 6 u false ""
      Nat.repr fr.2 ++ fr.1 ++ "ms"
  else
    let fr := fmtFrac 9 u false ""
    let minutes := fr.2 / 60
    let s₁ := Nat.repr (fr.2 % 60) ++ fr.1 ++ "s"
    if minutes > 0 then
      let hours := minutes / 60
      let s₂ := Nat.repr (minutes % 60) ++ "m" ++ s₁
      if hours > 0 then Nat.repr hours ++ "h" ++ s₂ else s₂
    else s₁

/-- The six-field snapshot returned by `GetMetrics` (the Go
`map[string]interface\x7b\x7d` with keys `total_sent`, `failed_attempts`,
`total_retries`, `avg_delivery_time`, `queue_size`, `worker_count`). -/
structure MetricsSnapshot where
  totalSent : Int
  failedAttempts : Int
  totalRetries : Int
  avgDeliveryTime : String
  queueSize : Nat
  workerCount : Int
deriving DecidableEq, Repr

/-- Embeds `GetMetrics`: the three counters verbatim, the running-sum average of
the delivery-time samples (left zero when there are none) rendered with
`Duration.String`, the channel's current length, and the configured
worker count. -/
def getMetrics (q : NotificationQueue) : MetricsSnapshot :=
  let avg : Nat :=
    if 0 < q.metrics.deliveryTimes.length then
      (q.metrics.deliveryTimes.foldl (· + ·) 0) / q.metrics.deliveryTimes.length
    else 0
  { totalSent := q.metrics.totalSent
    failedAttempts := q.metrics.failedAttempts
    totalRetries := q.metrics.totalRetries
    avgDeliveryTime := durationString avg
    queueSize := q.buffer.length
    workerCount := q.workerCount }

/-! ## Dispatch front end (`internal/grpc/service/notification_service.go`) -/

/-- The wire request of `PublishPost` (`proto.Post`): `created_at` is a
Unix-seconds `int64`. -/
structure ProtoPost where
  id : String
  authorId : String
  content : String
  createdAt : Int
deriving DecidableEq, Repr

/-- The post-construction prefix of `PublishPost`: build the model post
with `time.Unix(req.CreatedAt, 0)`, mint an ID when the request's is
empty, and replace the timestamp with `now` when `Time.IsZero` holds of
the converted value. -/
def publishPostBuild (now : GoTime) (freshID : String) (req : ProtoPost) :
    Post :=
  let post : Post :=
    { id := req.id, authorID := req.authorId, content := req.content,
      createdAt := timeUnix req.createdAt }
  let post₂ := if post.id = "" then { post with id := freshID } else post
  if post₂.createdAt.isZero then { post₂ with createdAt := now } else post₂

/-- Embeds `GetNotifications` of the GraphQL resolver: the store query with the
hard-coded read limit of 20. -/
def getNotificationsQuery (s : MemoryStore) (userID : String) :
    List Notification × Option StoreError :=
  getUserNotifications s userID 20

/-! ## Concrete sample data, used to instantiate the theorems -/

def samplePost : Post :=
  { id := "p1", authorID := "u1", content := "Hello world", createdAt := ⟨10⟩ }

def sampleQueued : Notification := newNotification "n1" ⟨20⟩ "u2" samplePost

def sampleQueued2 : Notification := newNotification "n2" ⟨21⟩ "u2" samplePost

def sampleQueued3 : Notification := newNotification "n3" ⟨22⟩ "u2" samplePost

def sampleDelivered : Notification := { sampleQueued with status := .delivered }

def sampleStranger : Notification := { sampleQueued with id := "n9" }

def sampleAlice : User :=
  { id := "u1", username := "alice", followerIDs := ["u2", "ghost"],
    followingIDs := [] }

def sampleBob : User :=
  { id := "u2", username := "bob", followerIDs := [], followingIDs := ["u1"] }

def sampleStore : MemoryStore :=
  { users := [("u1", sampleAlice), ("u2", sampleBob)]
    posts := [("p1", samplePost)]
    notifications := [("u2", [sampleQueued, sampleQueued2])] }

/-! ## Helper lemmas -/

theorem processNotificationN_attempts (fail : Bool) (n : Notification) :
    (processNotificationN fail n).attempts
      = n.attempts + (if fail then 1 else 0) := by
  cases fail with
  | false => simp [processNotificationN]
  | true =>
    by_cases h : n.attempts + 1 ≤ maxRetries <;>
      simp [processNotificationN, h]

theorem processNotificationN_attempts_mono (fail : Bool) (n : Notification) :
    n.attempts ≤ (processNotificationN fail n).attempts := by
  rw [processNotificationN_attempts]
  omega

/-- Invariant carried by a notification record through the pipeline: the
attempt counter never exceeds `maxRetries + 1`, and while the record can
still be on the channel (status `Queued` or `Retrying`) it is within the
retry budget. -/
def AttemptsInv (n : Notification) : Prop :=
  n.attempts ≤ maxRetries + 1
  ∧ ((n.status = .queued ∨ n.status = .retrying) → n.attempts ≤ maxRetries)

theorem processNotificationN_status (fail : Bool) (n : Notification) :
    (processNotificationN fail n).status
      = if fail then
          (if n.attempts + 1 ≤ maxRetries then .retrying else .failed)
        else .delivered := by
  cases fail with
  | false => simp [processNotificationN]
  | true =>
    by_cases h : n.attempts + 1 ≤ maxRetries <;>
      simp [processNotificationN, h]

theorem pipelineStep_attemptsInv {n n₂ : Notification}
    (h : PipelineStep n n₂) (hinv : AttemptsInv n) : AttemptsInv n₂ := by
  cases h
  case reenqueue hr => exact hinv
  case process fail hg =>
    have hb : n.attempts ≤ maxRetries := hinv.2 hg
    constructor
    · rw [processNotificationN_attempts]
      have hone : (if fail then 1 else 0) ≤ 1 := by cases fail <;> simp
      omega
    · intro hq
      rw [processNotificationN_status] at hq
      rw [processNotificationN_attempts]
      cases fail with
      | false => simp at hq
      | true =>
        by_cases hle : n.attempts + 1 ≤ maxRetries
        · simpa using hle
        · simp [hle] at hq

theorem queueNotificationsAux_spec (ns : List Notification)
    (q : NotificationQueue) (k : Nat) (hcap : q.buffer.length ≤ q.capacity) :
    (queueNotificationsAux q k ns).2
        = k + min ns.length (q.capacity - q.buffer.length)
    ∧ (queueNotificationsAux q k ns).1.capacity = q.capacity
    ∧ (queueNotificationsAux q k ns).1.buffer.length
        = min q.capacity (q.buffer.length + ns.length) := by
  induction ns generalizing q k with
  | nil =>
    simp [queueNotificationsAux]
    omega
  | cons n rest ih =>
    by_cases hfull : q.buffer.length < q.capacity
    · have step :
          queueNotificationsAux q k (n :: rest)
            = queueNotificationsAux { q with buffer := q.buffer ++ [n] }
                (k + 1) rest := by
        simp [queueNotificationsAux, queueNotification, hfull]
      have ih₂ := ih { q with buffer := q.buffer ++ [n] } (k + 1)
        (by simp; omega)
      rw [step]
      refine ⟨?_, ?_, ?_⟩
      · rw [ih₂.1]
        simp
        omega
      · rw [ih₂.2.1]
      · rw [ih₂.2.2]
        simp
        omega
    · have step :
          queueNotificationsAux q k (n :: rest)
            = queueNotificationsAux q k rest := by
        simp [queueNotificationsAux, queueNotification, hfull]
      have ih₂ := ih q k hcap
      rw [step]
      refine ⟨?_, ?_, ?_⟩
      · rw [ih₂.1]
        omega
      · rw [ih₂.2.1]
      · rw [ih₂.2.2]
        omega

theorem replaceById_eq_none (ns : List Notification) (n : Notification) :
    replaceById ns n = none ↔ ∀ m ∈ ns, m.id ≠ n.id := by
  induction ns with
  | nil => simp [replaceById]
  | cons h t ih =>
    by_cases hid : h.id = n.id
    · simp [replaceById, hid]
    · cases hrep : replaceById t n with
      | none =>
        constructor
        · intro _ m hm
          rcases List.mem_cons.mp hm with rfl | hm₂
          · exact hid
          · exact (ih.mp hrep) m hm₂
        · intro _
          simp [replaceById, hid, hrep]
      | some t₂ =>
        constructor
        · intro hl
          simp [replaceById, hid, hrep] at hl
        · intro hall
          have hn : replaceById t n = none :=
            ih.mpr (fun m hm => hall m (List.mem_cons_of_mem _ hm))
          rw [hn] at hrep
          exact Option.noConfusion hrep

theorem replaceById_eq_some (ns : List Notification) (n : Notification)
    (ns₂ : List Notification) (h : replaceById ns n = some ns₂) :
    ∃ (i : Nat) (m : Notification), ns[i]? = some m ∧ m.id = n.id
      ∧ ns₂ = ns.set i n := by
  induction ns generalizing ns₂ with
  | nil => simp [replaceById] at h
  | cons hd t ih =>
    simp only [replaceById] at h
    by_cases hid : hd.id = n.id
    · rw [if_pos hid] at h
      injection h with h
      refine ⟨0, hd, by simp, hid, ?_⟩
      rw [← h]
      simp
    · rw [if_neg hid] at h
      cases hrep : replaceById t n with
      | none =>
        rw [hrep] at h
        simp at h
      | some t₂ =>
        rw [hrep] at h
        simp only [Option.map_some'] at h
        injection h with h
        obtain ⟨i, m, hget, hmid, hset⟩ := ih t₂ hrep
        refine ⟨i + 1, m, by simpa using hget, hmid, ?_⟩
        rw [← h, hset]
        simp

theorem foldl_add_eq_sum (l : List Nat) (a : Nat) :
    l.foldl (· + ·) a = a + l.sum := by
  induction l generalizing a with
  | nil => simp
  | cons x t ih =>
    simp only [List.foldl_cons, List.sum_cons, ih]
    omega

/-! ## Claim theorems -/

/-- C1: the claim says a `PublishPost` request whose `created_at` field is
zero is persisted with its creation timestamp set to now.  The code first
computes `time.Unix(0, 0)`, which is the 1970 Unix epoch — not Go's zero
time (January 1, year 1) — so `Time.IsZero` is false, the replacement
branch is never taken, and the post is persisted with the epoch
timestamp.  This theorem evaluates the embedded code at such a request
(`now = timeUnix 1700000000`): the built post and the copy saved to the
store both carry `timeUnix 0`, which differs from `now`, and the zero
check indeed fails on `timeUnix 0`. -/
theorem c1_publishPost_zero_created_at_keeps_epoch :
    (publishPostBuild (timeUnix 1700000000) "fresh-uuid"
        { id := "p1", authorId := "u1", content := "hello",
          createdAt := 0 }).createdAt = timeUnix 0
    ∧ (alookup
        (savePost { users := [], posts := [], notifications := [] }
          (publishPostBuild (timeUnix 1700000000) "fresh-uuid"
            { id := "p1", authorId := "u1", content := "hello",
              createdAt := 0 })).posts "p1").map Post.createdAt
      = some (timeUnix 0)
    ∧ timeUnix 0 ≠ timeUnix 1700000000
    ∧ (timeUnix 0).isZero = false := by
  decide

/-- C2: on a failed delivery attempt with incremented `Attempts` in
1..3, the retry backoff is `initialBackoff * 2 ^ (Attempts - 1)` with
`initialBackoff = 100ms`: exactly 100ms, 200ms, 400ms.  `computeBackoff`
is a function of the attempt count alone (with `initialBackoff` a fixed
constant), so the schedule is deterministic in (initialBackoff, attempt). -/
theorem c2_backoff_schedule :
    computeBackoff 1 = 100 * millisecond
    ∧ computeBackoff 2 = 200 * millisecond
    ∧ computeBackoff 3 = 400 * millisecond
    ∧ ∀ attempts : Nat, 1 ≤ attempts → attempts ≤ maxRetries →
        computeBackoff attempts = initialBackoff * 2 ^ (attempts - 1) := by
  refine ⟨by decide, by decide, by decide, ?_⟩
  intro a h1 h3
  have h3n : a ≤ 3 := h3
  have ha : a = 1 ∨ a = 2 ∨ a = 3 := by omega
  rcases ha with rfl | rfl | rfl <;> decide

theorem c2_backoff_schedule_witness :
    computeBackoff 2 = initialBackoff * 2 ^ (2 - 1) :=
  c2_backoff_schedule.2.2.2 2 (by decide) (by decide)

/-- C3: a notification starts with `Attempts = 0` (`NewNotification`);
every processing pass leaves the counter non-decreasing, and along any
pipeline trace from a fresh notification the counter never exceeds
`maxRetries + 1 = 4`. -/
theorem c3_attempts_monotone_bounded
    (freshID : String) (now : GoTime) (userID : String) (post : Post)
    (n : Notification)
    (h : PipelineReaches (newNotification freshID now userID post) n) :
    n.attempts ≤ maxRetries + 1
    ∧ ∀ fail : Bool, n.attempts ≤ (processNotificationN fail n).attempts := by
  unfold PipelineReaches at h
  have hinv : AttemptsInv n := by
    induction h with
    | refl => exact ⟨Nat.zero_le _, fun _ => Nat.zero_le _⟩
    | tail hsteps step ih => exact pipelineStep_attemptsInv step ih
  exact ⟨hinv.1, fun fail => processNotificationN_attempts_mono fail n⟩

theorem c3_attempts_monotone_bounded_witness :
    (newNotification "n1" ⟨20⟩ "u2" samplePost).attempts ≤ maxRetries + 1 :=
  (c3_attempts_monotone_bounded "n1" ⟨20⟩ "u2" samplePost
    (newNotification "n1" ⟨20⟩ "u2" samplePost)
    Relation.ReflTransGen.refl).1

/-- C4: `Delivered` and `Failed` are terminal.  A worker pass applies only
to records on the channel (status `Queued` or `Retrying`), the retry
sleeper re-submits only `Retrying` records unchanged, and every store
update of the pipeline persists the record produced by the pass; so along
any sequence of pipeline steps a record once `Delivered` stays
`Delivered`, and once `Failed` stays `Failed`. -/
theorem c4_terminal_statuses (n n₂ : Notification)
    (h : PipelineReaches n n₂) :
    (n.status = .delivered → n₂.status = .delivered)
    ∧ (n.status = .failed → n₂.status = .failed) := by
  unfold PipelineReaches at h
  induction h with
  | refl => exact ⟨id, id⟩
  | tail hsteps step ih =>
    cases step
    case process fail hg =>
      refine ⟨fun hd => ?_, fun hf => ?_⟩
      · rcases hg with hgq | hgr
        · rw [ih.1 hd] at hgq
          exact absurd hgq (by decide)
        · rw [ih.1 hd] at hgr
          exact absurd hgr (by decide)
      · rcases hg with hgq | hgr
        · rw [ih.2 hf] at hgq
          exact absurd hgq (by decide)
        · rw [ih.2 hf] at hgr
          exact absurd hgr (by decide)
    case reenqueue hr =>
      exact ih

theorem c4_terminal_statuses_witness :
    sampleDelivered.status = Status.delivered :=
  (c4_terminal_statuses sampleDelivered sampleDelivered
    Relation.ReflTransGen.refl).1 rfl

/-- C5: the channel built by `NewNotificationQueue` has capacity 1000; a
submission to a full buffer is dropped (the buffer is returned unchanged
with `false`, never blocking); bulk submission reports exactly the number
accepted, namely the free room capped by the batch size; and submitting
`N + 1` items to an idle queue of capacity `N` accepts exactly `N`, after
which the next single submission is refused and leaves the queue
unchanged. -/
theorem c5_bounded_queue :
    (∀ wc : Int, (newNotificationQueue wc).capacity = 1000)
    ∧ (∀ (q : NotificationQueue) (n : Notification),
        q.buffer.length = q.capacity → queueNotification q n = (q, false))
    ∧ (∀ (q : NotificationQueue) (ns : List Notification),
        q.buffer.length ≤ q.capacity →
        (queueNotifications q ns).2
          = min ns.length (q.capacity - q.buffer.length))
    ∧ (∀ (cap : Nat) (w : Int) (mt : Metrics) (ns : List Notification),
        ns.length = cap + 1 →
        (queueNotifications ⟨cap, [], w, mt⟩ ns).2 = cap)
    ∧ (∀ (cap : Nat) (w : Int) (mt : Metrics) (ns : List Notification)
        (n : Notification), ns.length = cap →
        queueNotification (queueNotifications ⟨cap, [], w, mt⟩ ns).1 n
          = ((queueNotifications ⟨cap, [], w, mt⟩ ns).1, false)) := by
  refine ⟨fun wc => rfl, ?_, ?_, ?_, ?_⟩
  · intro q n hfull
    simp [queueNotification, hfull]
  · intro q ns hcap
    have h := (queueNotificationsAux_spec ns q 0 hcap).1
    simpa [queueNotifications] using h
  · intro cap w mt ns hlen
    have h := (queueNotificationsAux_spec ns ⟨cap, [], w, mt⟩ 0 (by simp)).1
    simp only [queueNotifications]
    rw [h, hlen]
    simp
  · intro cap w mt ns n hlen
    have hc := (queueNotificationsAux_spec ns ⟨cap, [], w, mt⟩ 0 (by simp)).2.1
    have hb := (queueNotificationsAux_spec ns ⟨cap, [], w, mt⟩ 0 (by simp)).2.2
    simp only [queueNotifications]
    have hfull : (queueNotificationsAux ⟨cap, [], w, mt⟩ 0 ns).1.buffer.length
        = (queueNotificationsAux ⟨cap, [], w, mt⟩ 0 ns).1.capacity := by
      rw [hb, hc]
      simp [hlen]
    simp [queueNotification, hfull]

theorem c5_bounded_queue_witness :
    (queueNotifications
        ⟨2, [], 1, { totalSent := 0, failedAttempts := 0, totalRetries := 0,
                     deliveryTimes := [] }⟩
        [sampleQueued, sampleQueued2, sampleQueued3]).2 = 2 :=
  c5_bounded_queue.2.2.2.1 2 1
    { totalSent := 0, failedAttempts := 0, totalRetries := 0,
      deliveryTimes := [] }
    [sampleQueued, sampleQueued2, sampleQueued3] (by decide)

/-- C6: `UpdateNotification` returns the user-not-found error exactly when
the recipient has no notification list, the notification-not-found error
exactly when the list exists but no entry carries the given ID; in both
error cases the store is returned unchanged, and otherwise it succeeds by
replacing the first matching entry in place. -/
theorem c6_updateNotification_errors (s : MemoryStore) (n : Notification) :
    ((updateNotification s n).2 = some .userNotFound ↔
      alookup s.notifications n.userID = none)
    ∧ ((updateNotification s n).2 = some .notificationNotFound ↔
      ∃ ns, alookup s.notifications n.userID = some ns
        ∧ ∀ m ∈ ns, m.id ≠ n.id)
    ∧ ((updateNotification s n).2 ≠ none → (updateNotification s n).1 = s)
    ∧ ((updateNotification s n).2 = none →
      ∃ ns i m, alookup s.notifications n.userID = some ns
        ∧ ns[i]? = some m ∧ m.id = n.id
        ∧ alookup (updateNotification s n).1.notifications n.userID
            = some (ns.set i n)) := by
  cases halo : alookup s.notifications n.userID with
  | none =>
    have hupd : updateNotification s n = (s, some .userNotFound) := by
      simp [updateNotification, halo]
    refine ⟨?_, ?_, ?_, ?_⟩
    · rw [hupd]
      simp [halo]
    · rw [hupd]
      simp [halo]
    · intro _
      rw [hupd]
    · rw [hupd]
      intro hcontra
      simp at hcontra
  | some lst =>
    cases hrep : replaceById lst n with
    | none =>
      have hupd : updateNotification s n = (s, some .notificationNotFound) := by
        simp [updateNotification, halo, hrep]
      refine ⟨?_, ?_, ?_, ?_⟩
      · rw [hupd]
        simp [halo]
      · rw [hupd]
        constructor
        · intro _
          exact ⟨lst, rfl, (replaceById_eq_none lst n).mp hrep⟩
        · intro _
          rfl
      · intro _
        rw [hupd]
      · rw [hupd]
        intro hcontra
        simp at hcontra
    | some lst₂ =>
      have hupd : updateNotification s n
          = ({ s with notifications := aset s.notifications n.userID lst₂ },
             none) := by
        simp [updateNotification, halo, hrep]
      obtain ⟨i, m, hget, hmid, hset⟩ := replaceById_eq_some lst n lst₂ hrep
      refine ⟨?_, ?_, ?_, ?_⟩
      · rw [hupd]
        simp [halo]
      · rw [hupd]
        constructor
        · intro hcontra
          simp at hcontra
        · rintro ⟨ns, hns, hall⟩
          injection hns with hns
          subst hns
          have hnone : replaceById lst n = none :=
            (replaceById_eq_none lst n).mpr hall
          rw [hnone] at hrep
          exact Option.noConfusion hrep
      · rw [hupd]
        intro hcontra
        exact absurd rfl hcontra
      · intro _
        refine ⟨lst, i, m, rfl, hget, hmid, ?_⟩
        rw [hupd]
        show alookup (aset s.notifications n.userID lst₂) n.userID
          = some (lst.set i n)
        rw [alookup_aset_self, hset]

theorem c6_updateNotification_errors_witness :
    (updateNotification sampleStore sampleStranger).1 = sampleStore :=
  (c6_updateNotification_errors sampleStore sampleStranger).2.2.1 (by decide)

/-- C7: `GetUserNotifications` never errors; for an unknown user it
returns the empty list; for a stored list it returns the up-to-`limit`
most recently appended entries in newest-first order (entry `i` of the
result is entry `length - 1 - i` of the stored list); and the read API's
`getNotifications` query is exactly this lookup with `limit = 20`, hence
at most 20 results. -/
theorem c7_getUserNotifications (s : MemoryStore) (userID : String)
    (limit : Int) :
    (getUserNotifications s userID limit).2 = none
    ∧ (alookup s.notifications userID = none →
        (getUserNotifications s userID limit).1 = [])
    ∧ (∀ ns, alookup s.notifications userID = some ns →
        (getUserNotifications s userID limit).1.length
            = min limit.toNat ns.length
        ∧ ∀ i : Nat, i < (getUserNotifications s userID limit).1.length →
            (getUserNotifications s userID limit).1[i]?
              = ns[ns.length - 1 - i]?)
    ∧ getNotificationsQuery s userID = getUserNotifications s userID 20
    ∧ (getNotificationsQuery s userID).1.length ≤ 20 := by
  have hq : getNotificationsQuery s userID
      = getUserNotifications s userID 20 := rfl
  cases halo : alookup s.notifications userID with
  | none =>
    refine ⟨?_, ?_, ?_, hq, ?_⟩
    · simp [getUserNotifications, halo]
    · intro _
      simp [getUserNotifications, halo]
    · intro ns hns
      exact Option.noConfusion hns
    · rw [hq]
      simp [getUserNotifications, halo]
  | some ns₀ =>
    have hres : ∀ lim : Int, (getUserNotifications s userID lim).1
        = ns₀.reverse.take lim.toNat := by
      intro lim
      simp [getUserNotifications, halo]
    refine ⟨?_, ?_, ?_, hq, ?_⟩
    · simp [getUserNotifications, halo]
    · intro hcontra
      exact Option.noConfusion hcontra
    · intro ns hns
      injection hns with hns
      subst hns
      constructor
      · rw [hres]
        simp [List.length_take]
      · intro i hi
        rw [hres] at hi ⊢
        rw [List.length_take, List.length_reverse] at hi
        have hilim : i < limit.toNat := lt_of_lt_of_le hi (min_le_left _ _)
        have hirev : i < ns₀.length := lt_of_lt_of_le hi (min_le_right _ _)
        have hirev₂ : i < ns₀.reverse.length := by
          rw [List.length_reverse]
          exact hirev
        rw [List.getElem?_take, if_pos hilim, List.getElem?_reverse hirev]
    · rw [hq, hres 20]
      rw [List.length_take]
      have h20 : (20 : Int).toNat = 20 := rfl
      rw [h20]
      omega

theorem c7_getUserNotifications_witness :
    (getUserNotifications sampleStore "u2" 20).1.length
      = min (Int.toNat 20) [sampleQueued, sampleQueued2].length :=
  (((c7_getUserNotifications sampleStore "u2" 20).2.2.1)
    [sampleQueued, sampleQueued2] rfl).1

/-- C8: `GetFollowers` for an absent user returns the user-not-found
error; for an existing user it returns, without error, exactly the user
snapshots reachable by resolving the follower IDs in the users map,
silently dropping IDs that do not resolve. -/
theorem c8_getFollowers (s : MemoryStore) (userID : String) :
    (alookup s.users userID = none →
      getFollowers s userID = ([], some .userNotFound))
    ∧ (∀ u, alookup s.users userID = some u →
        (getFollowers s userID).2 = none
        ∧ ∀ v : User, v ∈ (getFollowers s userID).1 ↔
            ∃ fid ∈ u.followerIDs, alookup s.users fid = some v) := by
  cases halo : alookup s.users userID with
  | none =>
    refine ⟨fun _ => ?_, ?_⟩
    · simp [getFollowers, halo]
    · intro u hu
      exact Option.noConfusion hu
  | some u₀ =>
    refine ⟨fun hc => Option.noConfusion hc, ?_⟩
    intro u hu
    injection hu with hu
    subst hu
    refine ⟨by simp [getFollowers, halo], ?_⟩
    intro v
    simp [getFollowers, halo, List.mem_filterMap]

theorem c8_getFollowers_witness :
    (getFollowers sampleStore "u1").2 = none :=
  ((c8_getFollowers sampleStore "u1").2 sampleAlice rfl).1

/-- C9: the metrics snapshot carries all six fields: the three counters
verbatim; the arithmetic mean (in whole nanoseconds) of the
delivery-duration list — zero when the list is empty — rendered as a Go
duration string; a queue size equal to the buffer's current length; and
a worker count equal to the configured pool size. -/
theorem c9_getMetrics (q : NotificationQueue) :
    (getMetrics q).queueSize = q.buffer.length
    ∧ (getMetrics q).workerCount = q.workerCount
    ∧ (getMetrics q).totalSent = q.metrics.totalSent
    ∧ (getMetrics q).failedAttempts = q.metrics.failedAttempts
    ∧ (getMetrics q).totalRetries = q.metrics.totalRetries
    ∧ durationString 0 = "0s"
    ∧ (q.metrics.deliveryTimes = [] →
        (getMetrics q).avgDeliveryTime = durationString 0)
    ∧ (q.metrics.deliveryTimes ≠ [] →
        (getMetrics q).avgDeliveryTime
          = durationString
              (q.metrics.deliveryTimes.sum /
                q.metrics.deliveryTimes.length)) := by
  refine ⟨rfl, rfl, rfl, rfl, rfl, by decide, ?_, ?_⟩
  · intro he
    simp [getMetrics, he]
  · intro hne
    have hlen : 0 < q.metrics.deliveryTimes.length :=
      List.length_pos.mpr hne
    simp [getMetrics, hlen, foldl_add_eq_sum]

theorem c9_getMetrics_witness :
    (getMetrics (newNotificationQueue 0)).avgDeliveryTime
      = durationString 0 :=
  (c9_getMetrics (newNotificationQueue 0)).2.2.2.2.2.2.1 rfl

/-- C10: a successful `UpdateNotification` changes at most the one entry
whose ID matches: the users map and the posts map are untouched, every
other user's notification list is untouched, and the recipient's list is
the old list with one position overwritten — same length, every other
position unchanged. -/
theorem c10_updateNotification_frame (s : MemoryStore) (n : Notification)
    (s₂ : MemoryStore) (h : updateNotification s n = (s₂, none)) :
    s₂.users = s.users
    ∧ s₂.posts = s.posts
    ∧ (∀ uid, uid ≠ n.userID →
        alookup s₂.notifications uid = alookup s.notifications uid)
    ∧ ∃ ns i m, alookup s.notifications n.userID = some ns
        ∧ ns[i]? = some m ∧ m.id = n.id
        ∧ alookup s₂.notifications n.userID = some (ns.set i n)
        ∧ (ns.set i n).length = ns.length
        ∧ ∀ j : Nat, j ≠ i → (ns.set i n)[j]? = ns[j]? := by
  cases halo : alookup s.notifications n.userID with
  | none =>
    have hupd : updateNotification s n = (s, some .userNotFound) := by
      simp [updateNotification, halo]
    rw [hupd] at h
    injection h with h₁ h₂
    exact Option.noConfusion h₂
  | some lst =>
    cases hrep : replaceById lst n with
    | none =>
      have hupd : updateNotification s n
          = (s, some .notificationNotFound) := by
        simp [updateNotification, halo, hrep]
      rw [hupd] at h
      injection h with h₁ h₂
      exact Option.noConfusion h₂
    | some lst₂ =>
      have hupd : updateNotification s n
          = ({ s with notifications := aset s.notifications n.userID lst₂ },
             none) := by
        simp [updateNotification, halo, hrep]
      rw [hupd] at h
      injection h with h₁ h₂
      subst h₁
      obtain ⟨i, m, hget, hmid, hset⟩ := replaceById_eq_some lst n lst₂ hrep
      refine ⟨rfl, rfl, ?_, lst, i, m, rfl, hget, hmid, ?_, ?_, ?_⟩
      · intro uid hne
        exact alookup_aset_ne _ _ _ _ hne
      · show alookup (aset s.notifications n.userID lst₂) n.userID
          = some (lst.set i n)
        rw [alookup_aset_self, hset]
      · exact List.length_set lst i n
      · intro j hj
        exact List.getElem?_set_ne (Ne.symm hj)

theorem c10_updateNotification_frame_witness :
    (updateNotification sampleStore sampleDelivered).1.users
      = sampleStore.users :=
  (c10_updateNotification_frame sampleStore sampleDelivered
    (updateNotification sampleStore sampleDelivered).1 (by decide)).1

end DNDS
